import Mathlib

/-!
Verification development for the core of the snowmobile SQL script
orchestration engine.  The Python sources are shallowly embedded as Lean
functions:

* `snowmobile/core/tag.py`        → `Snowmobile.mkTag` and its helpers
* `snowmobile/core/statement.py`  → `Snowmobile.Run.run`
* `snowmobile/core/statement/qa.py` → `Snowmobile.QaDiff.diffProcess`,
  `Snowmobile.QaDiff.partitionsAreEqual`, `Snowmobile.Run.setOutcome`
* `snowmobile/core/exception_handler.py` → the handler query functions in
  `Snowmobile.Handler`
* `snowmobile/core/script.py`     → the script state machine in
  `Snowmobile.Scr`
* the `Scope` class (`snowmobile/core/statement/statement.py`)
  → `Snowmobile.Scopes`

Machine strings are Lean `String`s; Python `dict`s keyed by integers are
insertion-ordered association lists; fallible Python code (attribute errors,
index errors, raised exceptions) is embedded with `Option`/`Except` results.
-/

namespace Snowmobile

/-! ## Python string primitives -/

/-- Python `str.strip(chars)`: removes leading and trailing characters that
are members of `chars`. -/
def stripChars (s : String) (chars : String) : String :=
  let cs := chars.toList
  let l := s.toList.dropWhile (fun c => cs.contains c)
  let l := (l.reverse.dropWhile (fun c => cs.contains c)).reverse
  String.mk l

/-- Modelled from the spec: `cfg.script.power_strip(val_to_strip,
chars_to_strip)` is referenced from `tag.py` but its definition is not under
`src/`; per the spec it strips the given characters (trailing lines and
whitespace) from both ends of the value, i.e. Python `str.strip(chars)`. -/
def powerStrip (valToStrip : String) (charsToStrip : String) : String :=
  stripChars valToStrip charsToStrip

/-- Python whitespace for bare `str.strip()`. -/
def pyWs : String := " \t\n\r\x0b\x0c"

/-- `cfg.script.arg_to_string`: `.strip().strip(QUOTE).strip().strip(SQUOTE).strip()`
(`configuration/schema/script.py`). -/
def argToString (argAsStr : String) : String :=
  stripChars (stripChars (stripChars (stripChars (stripChars argAsStr pyWs) "\"") pyWs) "\x27") pyWs

/-- Helper for `pyPartition`: first occurrence split, returning the text
before and after the needle. -/
def splitFirst : List Char → List Char → Option (List Char × List Char)
  | hay, needle =>
    if needle.isPrefixOf hay then some ([], hay.drop needle.length)
    else
      match hay with
      | [] => none
      | c :: rest =>
        match splitFirst rest needle with
        | some (b, a) => some (c :: b, a)
        | none => none

/-- Python `str.partition(sep)` for a non-empty separator: `(before, sep,
after)` at the first occurrence, or `(s, "", "")` when absent. -/
def pyPartition (s sep : String) : String × String × String :=
  match splitFirst s.toList sep.toList with
  | some (b, a) => (String.mk b, sep, String.mk a)
  | none => (s, "", "")

/-- Helper for `pySplit`: split a character list at every occurrence of the
separator character, keeping empty pieces (Python `str.split(sep)`
semantics). -/
def splitOnChar (c : Char) : List Char → List (List Char)
  | [] => [[]]
  | a :: rest =>
    let r := splitOnChar c rest
    if a = c then [] :: r
    else
      match r with
      | [] => [[a]]
      | h :: t => (a :: h) :: t

/-- Python `str.split(sep)` for a one-character separator (the only shapes
`Tag.__init__` uses: `split('\n')` and `split(' ')`). -/
def pySplit (s : String) (c : Char) : List String :=
  (splitOnChar c s.toList).map String.mk

/-- Python `str.lower()` (ASCII). -/
def pyLower (s : String) : String :=
  String.mk (s.toList.map Char.toLower)

/-- Substring occurrence test (used for `re.findall(re.escape(x), y)`:
a regex-escaped literal matches exactly where the literal occurs). -/
def listOccurs [DecidableEq α] : List α → List α → Bool
  | hay, needle =>
    if needle.isPrefixOf hay then true
    else
      match hay with
      | [] => false
      | _ :: rest => listOccurs rest needle

/-- `strOccurs needle hay`: `needle` occurs in `hay` as a substring. -/
def strOccurs (needle hay : String) : Bool :=
  listOccurs hay.toList needle.toList

/-- Regex word characters (`\w`). -/
def isWordChar (c : Char) : Bool :=
  c.isAlphanum || c == '_'

/-- Boundary side condition of `\b` next to a literal word: the neighbouring
character, if any, is not a word character. -/
def boundaryOk : Option Char → Bool
  | none => true
  | some c => !isWordChar c

/-- One step of the whole-word search: does `needle` occur starting here with
word boundaries on both sides?  `prev` is the character before the current
position. -/
def wholeWordAux [DecidableEq α] (isW : α → Bool) :
    Option α → List α → List α → Bool
  | prev, hay, needle =>
    (needle.isPrefixOf hay
      && (match prev with | none => true | some c => !isW c)
      && (match (hay.drop needle.length).head? with
          | none => true
          | some c => !isW c))
    ||
    (match hay with
     | [] => false
     | c :: rest => wholeWordAux isW (some c) rest needle)

/-- `re.findall(f"\\b{term}\\b", line) ≠ []` for a plain (word-character)
term: the term occurs in `line` delimited by word boundaries. -/
def wholeWordOccurs (term line : String) : Bool :=
  wholeWordAux isWordChar none line.toList term.toList

/-! ## Configuration subset used by `Tag` (`snowmobile.toml` object model) -/

/-- The slice of `snowmobile.Configuration` consumed by `Tag.__init__`:
`script.patterns.core.sep_desc`, `sql.kw_exceptions`, `sql.generic_anchors`
and `sql.named_objects`. -/
structure Cfg where
  sepDesc : String
  kwExceptions : List (String × String)
  genericAnchors : List (String × String)
  namedObjects : List String
  deriving Repr, DecidableEq

/-- `Configuration.DEF_OBJ` (class constant). -/
def DEF_OBJ : String := "unknown"

/-- `Configuration.DEF_DESC` (class constant). -/
def DEF_DESC : String := "statement"

/-- `cfg.sql.objects_within(first_line)` (`core/schema/other.py`): the
named objects matched whole-word in the first sql line, keyed by their
position in the configured list (ascending).  The matched text of
`re.findall(f"\\b{term}\\b", line)[0]` is the term itself for the plain
word terms the configuration holds. -/
def objectsWithin (namedObjects : List String) (firstLine : String) :
    List (Nat × String) :=
  namedObjects.enum.filterMap
    (fun p => if wholeWordOccurs p.2 firstLine then some p else none)

/-! ## Tag (`snowmobile/core/tag.py`) -/

/-- The attributes of a constructed `Tag` that the claims refer to. -/
structure Tag where
  nmPr : String
  anchorPr : String
  kwPr : String
  objPr : String
  descPr : String
  firstLine : String
  kwGe : String
  objGe : String
  descGe : String
  anchorGe : String
  nmGe : String
  kw : String
  obj : String
  desc : String
  anchor : String
  nm : String
  index : Nat
  deriving Repr, DecidableEq

/-- `part_desc`: `tuple(v for v in nm_pr.partition(sep_desc) if v)`. -/
def partDesc (cfg : Cfg) (nmPr : String) : List String :=
  let p := pyPartition nmPr cfg.sepDesc
  [p.1, p.2.1, p.2.2].filter (fun v => v ≠ "")

/-- `anchor_vf`: the whitespace-split, space-stripped words of
`part_desc[0]`. -/
def anchorVf (cfg : Cfg) (nmPr : String) : List String :=
  (pySplit ((partDesc cfg nmPr).headD "") ' ').map (fun v => powerStrip v " ")
    |>.filter (fun v => v ≠ "")

/-- The words of `part_desc[-1]`, space-stripped (used for `desc_pr`). -/
def descVf (cfg : Cfg) (nmPr : String) : List String :=
  (pySplit ((partDesc cfg nmPr).getLastD "") ' ').map (fun v => powerStrip v " ")
    |>.filter (fun v => v ≠ "")

/-- `(anchor_pr, kw_pr, obj_pr, desc_pr)` as assigned inside
`if len(self.part_desc) == 3:`; all empty otherwise.  Note the source
guard `len(anchor_vf) > 2` on `obj_pr`. -/
def tagPrs (cfg : Cfg) (nmPr : String) : String × String × String × String :=
  if (partDesc cfg nmPr).length = 3 then
    let vf := anchorVf cfg nmPr
    (String.intercalate " " vf,
     vf.headD "",
     if vf.length > 2 then String.intercalate " " vf.tail else "",
     String.intercalate " " (descVf cfg nmPr))
  else ("", "", "", "")

/-- `first_line`: lower-cased, stripped first line of the stripped sql. -/
def tagFirstLine (sql : String) : String :=
  let strippedSql := powerStrip sql "\n "
  powerStrip (pyLower ((pySplit strippedSql '\n').headD "")) "\n "

/-- `words_in_first_line`. -/
def wordsInFirstLine (sql : String) : List String :=
  (pySplit (tagFirstLine sql) ' ').map argToString |>.filter (fun v => v ≠ "")

/-- `kw_ge`: first keyword, normalised through `kw_exceptions`. -/
def kwGeF (cfg : Cfg) (sql : String) : String :=
  let w0 := (wordsInFirstLine sql).headD ""
  (cfg.kwExceptions.lookup w0).getD w0

/-- `obj_ge`: earliest-configured named object matched in the first line,
else `DEF_OBJ`. -/
def objGeF (cfg : Cfg) (sql : String) : String :=
  match (objectsWithin cfg.namedObjects (tagFirstLine sql)).head? with
  | some p => p.2
  | none => DEF_OBJ

/-- `desc_ge` with `incl_idx_in_desc = True` (its construction-time value). -/
def descGeF (index : Nat) : String :=
  DEF_DESC ++ " #" ++ toString index

/-- `anchor_ge`. -/
def anchorGeF (cfg : Cfg) (sql : String) : String :=
  let kwGe := kwGeF cfg sql
  let objGe := objGeF cfg sql
  let generalizedAnchor := cfg.genericAnchors.lookup kwGe
  match generalizedAnchor with
  | some ga =>
    if ga ≠ "" ∧ objGe = DEF_OBJ then ga
    else kwGe ++ (if kwGe ≠ "" ∧ objGe ≠ "" then " " else "") ++ objGe
  | none => kwGe ++ (if kwGe ≠ "" ∧ objGe ≠ "" then " " else "") ++ objGe

/-- `nm_ge`. -/
def nmGeF (cfg : Cfg) (sql : String) (index : Nat) : String :=
  anchorGeF cfg sql ++ cfg.sepDesc ++ descGeF index

/-- Python string truthiness of `a or b`. -/
def strOr (a b : String) : String :=
  if a ≠ "" then a else b

/-- `Tag.__init__`.  Returns `none` exactly where the Python constructor
raises: `partition` on an empty `sep_desc` (`ValueError`), `anchor_vf[0]`
on an all-blank anchor part, and `words_in_first_line[0]` on a blank first
line (`IndexError`). -/
def mkTag (cfg : Cfg) (nmPr : String) (sql : String) (index : Nat) :
    Option Tag :=
  if cfg.sepDesc = "" then none
  else if (partDesc cfg nmPr).length = 3 ∧ anchorVf cfg nmPr = [] then none
  else if wordsInFirstLine sql = [] then none
  else
    let prs := tagPrs cfg nmPr
    some
      { nmPr := nmPr
        anchorPr := prs.1
        kwPr := prs.2.1
        objPr := prs.2.2.1
        descPr := prs.2.2.2
        firstLine := tagFirstLine sql
        kwGe := kwGeF cfg sql
        objGe := objGeF cfg sql
        descGe := descGeF index
        anchorGe := anchorGeF cfg sql
        nmGe := nmGeF cfg sql index
        kw := strOr prs.2.1 (kwGeF cfg sql)
        nm := strOr nmPr (nmGeF cfg sql index)
        obj := strOr prs.2.2.1 (objGeF cfg sql)
        desc := strOr prs.2.2.2 (descGeF index)
        anchor := strOr prs.1 (anchorGeF cfg sql)
        index := index }

/-! ## Scope (`Scope` class, `snowmobile/core/statement/statement.py`)

The `Scope.eval` regular-expression search
`re.findall(string=self.base, pattern=p)` is abstracted by an oracle
`rmatch p base`; the escaped branch `re.findall(pattern=re.escape(self.base),
string=p)` is the literal substring test. -/

/-- The five identity components a tag owns one `Scope` for
(`cfg.SCOPE_ATTRIBUTES`). -/
structure TagBases where
  kw : String
  obj : String
  desc : String
  anchor : String
  nm : String
  deriving Repr, DecidableEq

/-- The scope keyword arguments reaching `Tag.scope(**kwargs)` from
`Script.filter()`: per component, the non-empty include/exclude pattern
lists (empty list = argument absent, matching
`filters[_id] = {k: v for k, v in merged.items() if v}`). -/
structure Filters where
  inclKw : List String := []
  inclObj : List String := []
  inclDesc : List String := []
  inclAnchor : List String := []
  inclNm : List String := []
  exclKw : List String := []
  exclObj : List String := []
  exclDesc : List String := []
  exclAnchor : List String := []
  exclNm : List String := []
  deriving Repr, DecidableEq

/-- The empty filter kwargs (`Tag.scope(**{})`). -/
def emptyFilters : Filters := {}

/-- `Scope.parse_kwargs` net effect: `check_against_args[k] =
provided_args.get(k) or fallback_to[k]` with `fallback_to = {incl: [base],
excl: []}`. -/
def checkAgainst (base : String) (incl excl : List String) :
    List String × List String :=
  (if incl = [] then [base] else incl, if excl = [] then [] else excl)

/-- `Scope.matches_patterns`: `any([escaped, unescaped])` where `escaped`
searches for the escaped base inside each pattern and `unescaped` runs each
pattern as a regex over the base. -/
def matchesPatterns (rmatch : String → String → Bool) (base : String)
    (pats : List String) : Bool :=
  (pats.any fun p => strOccurs base p) || (pats.any fun p => rmatch p base)

/-- `Scope.eval`: included iff some inclusion pattern matches and no
exclusion pattern matches. -/
def scopeEval (rmatch : String → String → Bool) (base : String)
    (incl excl : List String) : Bool :=
  let ca := checkAgainst base incl excl
  matchesPatterns rmatch base ca.1 && !matchesPatterns rmatch base ca.2

/-- `Tag.scope(**kwargs)`: `all(s.eval(**kwargs) for s in self.scopes)`
over the five component scopes. -/
def tagScope (rmatch : String → String → Bool) (b : TagBases)
    (f : Filters) : Bool :=
  scopeEval rmatch b.kw f.inclKw f.exclKw
    && scopeEval rmatch b.obj f.inclObj f.exclObj
    && scopeEval rmatch b.desc f.inclDesc f.exclDesc
    && scopeEval rmatch b.anchor f.inclAnchor f.exclAnchor
    && scopeEval rmatch b.nm f.inclNm f.exclNm

/-! ## Exception records and handler queries
(`snowmobile/core/exception_handler.py`) -/

/-- The classes of exception instances stored in a handler ledger that the
`run()` checks discriminate on (`isinstance` filters). -/
inductive ErrKind where
  /-- A raw driver exception (`ProgrammingError`/`DatabaseError`/
  `pd.DatabaseError`), member of `errors.db_errors`. -/
  | driver (payload : Nat)
  /-- `errors.StatementPostProcessingError`. -/
  | postProc (payload : Nat)
  /-- `errors.QAEmptyFailure`. -/
  | qaEmptyFailure (payload : Nat)
  /-- `errors.QADiffFailure`. -/
  | qaDiffFailure (payload : Nat)
  /-- Any other exception. -/
  | generic (payload : Nat)
  deriving Repr, DecidableEq

/-- A ledger entry: `by_ctx[ctx_id][tmstmp] = e`.  `toRaise = none` models a
stored exception object that has no `to_raise` attribute at all (a raw
driver exception); snowmobile `Error`s always carry `some b`. -/
structure ErrRec where
  kind : ErrKind
  toRaise : Option Bool
  tmstmp : Nat
  deriving Repr, DecidableEq

/-- Python attribute/type errors surfacing from the embedded code itself. -/
inductive PyErr where
  /-- `'NoneType' object has no attribute 'set'` — chaining `.set(...)` onto
  the `None` returned by `ExceptionHandler.collect`. -/
  | noneHasNoAttributeSet
  /-- `AttributeError` from reading `.to_raise` off an exception object that
  does not define it. -/
  | noToRaiseAttribute
  /-- `TypeError: exceptions must derive from BaseException` — `raise`
  applied to the empty dict returned by `ExceptionHandler.get`. -/
  | raiseNonException
  deriving Repr, DecidableEq

/-- Does an entry match a `db_errors` type filter? -/
def isDbError : ErrKind → Bool
  | .driver _ => true
  | _ => false

/-- Does an entry match `StatementPostProcessingError`? -/
def isPostProc : ErrKind → Bool
  | .postProc _ => true
  | _ => false

/-- Does an entry match `list(Statement._DERIVED_FAILURE_MAPPING.values())`
(`QADiffFailure` or `QAEmptyFailure`)? -/
def isDerivedFailure : ErrKind → Bool
  | .qaEmptyFailure _ => true
  | .qaDiffFailure _ => true
  | _ => false

/-- `ExceptionHandler._query(of_type=f, to_raise=True)` over the current
context: the `to_raise` set comprehension reads `.to_raise` off every stored
entry, so any attribute-less entry raises `AttributeError`; otherwise the
result is the set of entries matching both filters.  `seen` is its
non-emptiness. -/
def seenQ (ledger : List ErrRec) (f : ErrKind → Bool) :
    Except PyErr Bool :=
  if ledger.any (fun e => e.toRaise.isNone) then .error .noToRaiseAttribute
  else .ok (ledger.any (fun e => f e.kind && e.toRaise = some true))

/-- `_query` keys are returned sorted most-recent first; `get(first=True)`
takes the last of that ordering, i.e. the matching entry with the minimal
timestamp. -/
def getFirstQ (ledger : List ErrRec) (f : ErrKind → Bool) :
    Option ErrRec :=
  (ledger.filter (fun e => f e.kind && e.toRaise = some true)).foldl
    (fun acc e =>
      match acc with
      | none => some e
      | some a => if e.tmstmp < a.tmstmp then some e else some a)
    none

/-- `get(last=True, to_raise=True)` (no type filter): the matching entry
with the maximal timestamp — index `0` of the descending key order. -/
def getLastToRaise (ledger : List ErrRec) : Option ErrRec :=
  (ledger.filter (fun e => e.toRaise = some true)).foldl
    (fun acc e =>
      match acc with
      | none => some e
      | some a => if e.tmstmp > a.tmstmp then some e else some a)
    none

/-- `seen(to_raise=True)` with no type filter. -/
def seenToRaise (ledger : List ErrRec) : Except PyErr Bool :=
  if ledger.any (fun e => e.toRaise.isNone) then .error .noToRaiseAttribute
  else .ok (ledger.any (fun e => e.toRaise = some true))

/-! ## Statement execution (`Statement.run`, `snowmobile/core/statement.py`,
and `QA`/`Empty`, `snowmobile/core/statement/qa.py`)

The result-set type is an opaque parameter `DF` (the tabular capability is
an external collaborator); the only operation `Empty.process` needs is
`DF.empty`, passed as `dfEmpty`. -/

namespace Run

/-- Statement flavour: generic base class or the `qa-empty` variant
(`Script._ANCHOR_TO_QA_BASE_MAP`; the `qa-diff` post-processing step is
embedded separately in `Snowmobile.QaDiff`). -/
inductive StmtKind where
  | base
  | qaEmpty
  deriving Repr, DecidableEq

/-- `Statement.is_derived`: the tag anchor is one of `cfg.QA_ANCHORS`. -/
def isDerived : StmtKind → Bool
  | .base => false
  | .qaEmpty => true

/-- The per-statement state touched by `run()`: result set, lifecycle
timestamps, outcome fields (`outcome` / `_outcome`), `executed`, plus the
statement's exception handler (`e`): current-context ledger and
`e.outcome`. -/
structure StmtState (DF : Type) where
  kind : StmtKind
  included : Bool
  results : DF
  startTime : Nat
  endTime : Nat
  executionTime : Nat
  outcomeB : Bool
  outcomeI : Int
  executed : Bool
  hErrors : List ErrRec
  hOutcome : Option Int
  deriving Repr, DecidableEq

/-- Outcome of the external `sn.query(sql, results, lower)` call: a result
set, or a raised driver error. -/
inductive QueryRes (DF : Type) where
  | ok (df : DF)
  | dbError (payload : Nat)
  deriving Repr, DecidableEq

/-- How `run()` exits: normal return of `self`, a Python-level error
(attribute/type error), or a raised collected exception. -/
inductive RunExit (DF : Type) where
  | returned (s : StmtState DF)
  | raisedPy (e : PyErr) (s : StmtState DF)
  | raisedErr (e : ErrRec) (s : StmtState DF)
  deriving Repr, DecidableEq

/-- Modelled from the spec: `Statement._exception_collector(e, _id)` is
referenced from `qa.py` but not defined under `src/`; per the spec's outcome
codes and its use sites it records the exception in the statement's handler
and stores the numeric outcome code `_id` in `_outcome`. -/
def exceptionCollector {DF : Type} (s : StmtState DF) (e : ErrRec)
    (code : Int) : StmtState DF :=
  { s with hErrors := s.hErrors ++ [e], outcomeI := code }

/-- `QA.set_outcome` (`qa.py`): no change when a post-processing/execution
error already occurred; `-3` on a passed check; on a failed check collect
the object-specific failure (`to_raise=True`) with `_id=-2`.  The variant's
anchor picks `QAEmptyFailure` vs `QADiffFailure`. -/
def setOutcome {DF : Type} (anchorIsQaEmpty : Bool) (s : StmtState DF)
    (stamp : Nat) : StmtState DF :=
  if s.outcomeI = -1 ∨ s.outcomeI = 1 then s
  else if s.outcomeB then { s with outcomeI := -3 }
  else
    exceptionCollector s
      ⟨(if anchorIsQaEmpty then .qaEmptyFailure 0 else .qaDiffFailure 0),
        some true, stamp⟩
      (-2)

/-- `process()` dispatch: no-op for the base class; `Empty.process` sets
`outcome = results.empty` and calls `set_outcome()`. -/
def processK {DF : Type} (dfEmpty : DF → Bool) (s : StmtState DF)
    (stamp : Nat) : StmtState DF :=
  match s.kind with
  | .base => s
  | .qaEmpty => setOutcome true { s with outcomeB := dfEmpty s.results } stamp

/-- `Statement.run(results, lower, render, on_error, on_exception,
on_failure, ctx_id)` with `ctx_id=None` (fresh context).  `t1`/`t2` are the
wall-clock samples taken by `start()` and by `end()`/`collect`.

The `try` body runs the query only when `bool(self)` (tag inclusion); a
driver error is caught and handed to
`self.e.collect(e=e).set(outcome=1)` — `collect` stores the raw exception
(which carries no `to_raise` attribute) and returns `None`, so the chained
`.set` raises `AttributeError`, which propagates after the `finally` block
(`process()` still runs because `e.outcome` was never set to `1`). -/
def run {DF : Type} (dfEmpty : DF → Bool) (s0 : StmtState DF)
    (q : QueryRes DF) (onError onException onFailure : Option String)
    (t1 t2 : Nat) : RunExit DF :=
  let s := { s0 with hErrors := ([] : List ErrRec) }
  let tryRes : StmtState DF × Option PyErr :=
    if s.included then
      match q with
      | .ok df =>
        let s := { s with startTime := t1, results := df }
        let s :=
          { s with outcomeI := 2, outcomeB := true, executed := true,
                   endTime := t2, executionTime := t2 - t1 }
        ({ s with hOutcome := some 2 }, none)
      | .dbError p =>
        let s := { s with startTime := t1 }
        let s := { s with hErrors := s.hErrors ++ [⟨.driver p, none, t2⟩] }
        (s, some PyErr.noneHasNoAttributeSet)
    else (s, none)
  let s :=
    if tryRes.1.hOutcome ≠ some 1 then processK dfEmpty tryRes.1 (t2 + 1)
    else tryRes.1
  match tryRes.2 with
  | some pe => .raisedPy pe s
  | none =>
    match seenQ s.hErrors isDbError with
    | .error pe => .raisedPy pe s
    | .ok sawDb =>
      if sawDb && onError ≠ some "c" then
        match getFirstQ s.hErrors isDbError with
        | some e => .raisedErr e s
        | none => .raisedPy .raiseNonException s
      else
        match seenQ s.hErrors isPostProc with
        | .error pe => .raisedPy pe s
        | .ok sawPp =>
          if sawPp && onException ≠ some "c" then
            match getFirstQ s.hErrors isPostProc with
            | some e => .raisedErr e s
            | none => .raisedPy .raiseNonException s
          else
            if isDerived s.kind && !s.outcomeB && onFailure ≠ some "c" then
              match getFirstQ s.hErrors isDerivedFailure with
              | some e => .raisedErr e s
              | none => .raisedPy .raiseNonException s
            else .returned s

end Run

/-! ## `QA.Diff` post-processing (`snowmobile/core/statement/qa.py`)

The pandas/`df_ext` helpers (`cols_ending_at`, `cols_matching_patterns`,
`drop`, `set_index`, `partitions`, `df_diff`) belong to the external
tabular capability and are supplied as oracles; the tolerance arguments of
`df_diff` are baked into the `dfDiff` oracle. -/

namespace QaDiff

/-- Oracles for the external tabular operations used by `Diff`. -/
structure DFOps (DF : Type) where
  columns : DF → List String
  colsEndingAt : DF → String → List String → List String
  colsMatchingPatterns : DF → List String → List String → List String
  dropCols : DF → List String → DF
  setIndex : DF → List String → DF
  partitions : DF → String → Except Nat (List DF)
  dfDiff : DF → DF → Bool

/-- The `Diff`-statement state touched by `process()`. -/
structure DiffSt (DF : Type) where
  results : DF
  partitionOn : String
  endIndexAt : String
  comparePatterns : List String
  ignorePatterns : List String
  idxCols : List String
  dropColsL : List String
  compareCols : List String
  partitionsL : List DF
  outcomeB : Bool
  outcomeI : Int
  hErrors : List ErrRec

/-- `Statement._exception_collector` for a `Diff` statement (see
`Snowmobile.Run.exceptionCollector`; modelled from the spec). -/
def collectD {DF : Type} (s : DiffSt DF) (e : ErrRec) (code : Int) :
    DiffSt DF :=
  { s with hErrors := s.hErrors ++ [e], outcomeI := code }

/-- `QA.set_outcome` specialised to a `Diff` statement (anchor
`qa-diff` → `QADiffFailure`). -/
def setOutcomeD {DF : Type} (s : DiffSt DF) (stamp : Nat) : DiffSt DF :=
  if s.outcomeI = -1 ∨ s.outcomeI = 1 then s
  else if s.outcomeB then { s with outcomeI := -3 }
  else collectD s ⟨.qaDiffFailure 0, some true, stamp⟩ (-2)

/-- `Diff.partitions_are_equal(partitions, abs_tol, rel_tol)`: `df_diff`
over every consecutive pair `(partitions_by_index[i],
partitions_by_index[i+1])` for `i in range(1, len)`, conjoined with `all`
(vacuously `True` for fewer than two partitions). -/
def partitionsAreEqual {DF : Type} (dfDiff : DF → DF → Bool)
    (partitions : List DF) : Bool :=
  (partitions.zip partitions.tail).all fun p => dfDiff p.1 p.2

/-- `Diff.process()`: `split_cols` (index/drop/compare column isolation and
the partition-column membership check, each collecting a
`StatementPostProcessingError` with `_id=-1` on failure), the in-place
`drop`/`set_index` on `results`, partitioning (exceptions collected with
`_id=-1`), the equality check guarded by `_outcome != -1`, and the
`finally: return self.set_outcome()`. -/
def diffProcess {DF : Type} (ops : DFOps DF) (s : DiffSt DF) (stamp : Nat) :
    DiffSt DF :=
  let s := { s with outcomeB := false }
  let s :=
    { s with idxCols := ops.colsEndingAt s.results s.endIndexAt [s.partitionOn] }
  let s :=
    if s.idxCols = [] then collectD s ⟨.postProc 0, some false, stamp⟩ (-1)
    else s
  let s :=
    { s with dropColsL := ops.colsMatchingPatterns s.results s.ignorePatterns [] }
  let s :=
    { s with compareCols :=
        (ops.colsMatchingPatterns s.results s.comparePatterns
          ([s.partitionOn] ++ s.idxCols ++ s.dropColsL)) }
  let s :=
    if s.compareCols = [] then collectD s ⟨.postProc 0, some false, stamp⟩ (-1)
    else s
  let s :=
    if !(ops.columns s.results).contains s.partitionOn then
      collectD s ⟨.postProc 0, some false, stamp⟩ (-1)
    else s
  let s :=
    { s with results :=
        if s.dropColsL ≠ [] then ops.dropCols s.results s.dropColsL
        else s.results }
  let s := { s with results := ops.setIndex s.results s.idxCols }
  let s : DiffSt DF :=
    match ops.partitions s.results s.partitionOn with
    | .ok ps => { s with partitionsL := ps }
    | .error m => collectD s ⟨.postProc m, some false, stamp⟩ (-1)
  let s :=
    if s.outcomeI = -1 then s
    else { s with outcomeB := partitionsAreEqual ops.dfDiff s.partitionsL }
  setOutcomeD s stamp

end QaDiff

/-! ## Script state machine (`snowmobile/core/script.py`)

`_statements_all` is an insertion-ordered mapping `int → Statement`,
embedded as an association list.  A statement carries its original index
(`_index`), current index (`index`, mirrored into `tag.index`), the tag's
`is_included` flag and the five scope base values. -/

namespace Scr

/-- The slice of a `Statement` that `Script.filter`/`reset`/`statements`
manipulate. -/
structure SStmt where
  origIdx : Int
  index : Int
  included : Bool
  bases : TagBases
  deriving Repr, DecidableEq

instance : Inhabited SStmt :=
  ⟨{ origIdx := 0, index := 0, included := true,
     bases := { kw := "", obj := "", desc := "", anchor := "", nm := "" } }⟩

/-- The slice of a `Script` the filter-context claims are about:
`_statements_all`, the `filtered` flag, and the exception handler's
current-context ledger. -/
structure ScriptSt where
  stmtsAll : List (Int × SStmt)
  filtered : Bool
  ctxErrors : List ErrRec
  deriving Repr, DecidableEq

/-- One Python dict insertion: overwrite the existing binding in place, or
append a new one. -/
def dictUpsert (acc : List (Int × SStmt)) (kv : Int × SStmt) :
    List (Int × SStmt) :=
  if acc.any (fun p => p.1 == kv.1) then
    acc.map (fun p => if p.1 == kv.1 then kv else p)
  else acc ++ [kv]

/-- A Python dict comprehension over key/value pairs (last write wins,
insertion ordered). -/
def pyDict (l : List (Int × SStmt)) : List (Int × SStmt) :=
  l.foldl dictUpsert []

/-- Insert into a key-sorted association list. -/
def insertByKey (kv : Int × SStmt) : List (Int × SStmt) → List (Int × SStmt)
  | [] => [kv]
  | p :: rest =>
    if kv.1 ≤ p.1 then kv :: p :: rest else p :: insertByKey kv rest

/-- `{i: d[i] for i in sorted(d)}`: sort an association list by key. -/
def sortByKey : List (Int × SStmt) → List (Int × SStmt)
  | [] => []
  | kv :: rest => insertByKey kv (sortByKey rest)

/-- `Statement.reset(index=True)`: `self.index = self.tag.index =
self._index`. -/
def stmtResetIndex (s : SStmt) : SStmt :=
  { s with index := s.origIdx }

/-- `Statement.reset(scope=True)`: `self.tag.scope(**{})`. -/
def stmtResetScope (rmatch : String → String → Bool) (s : SStmt) : SStmt :=
  { s with included := tagScope rmatch s.bases emptyFilters }

/-- `Script.reset(index=True, scope=True, ctx_id=True, in_context=True,
_filter=True)` — the cleanup performed in `filter`'s `finally:` block, in
source order: toggle `filtered`; restore every statement's index and rebuild
`_statements_all` keyed/sorted by the restored indices; release the handler
context; re-evaluate every tag's scope against the empty kwargs. -/
def exitReset (rmatch : String → String → Bool) (S : ScriptSt) : ScriptSt :=
  let S := { S with filtered := !S.filtered }
  let reIndexed := S.stmtsAll.map (fun p => (p.1, stmtResetIndex p.2))
  let unsortedByIndex := pyDict (reIndexed.map (fun p => (p.2.index, p.2)))
  let S := { S with stmtsAll := sortByKey unsortedByIndex }
  let S := { S with ctxErrors := ([] : List ErrRec) }
  { S with stmtsAll := S.stmtsAll.map (fun p => (p.1, stmtResetScope rmatch p.2)) }

/-- Entering `Script.filter(**F)` up to the `yield`: open a fresh handler
context, evaluate every statement's scopes against the merged filter kwargs
(`_update_scope`), and toggle `filtered` on (`self.reset(_filter=True)`). -/
def filterEnter (rmatch : String → String → Bool) (F : Filters)
    (S : ScriptSt) : ScriptSt :=
  let S := { S with ctxErrors := ([] : List ErrRec) }
  let S :=
    { S with stmtsAll :=
        (S.stmtsAll.map
          (fun (p : Int × SStmt) =>
            (p.1, { p.2 with included := tagScope rmatch p.2.bases F }))) }
  { S with filtered := !S.filtered }

/-- How the `finally:` block of `Script.filter` exits: a clean return, the
re-raise of a collected error (after the state restore), or a Python-level
crash inside `seen` (before any restore). -/
inductive FilterExit where
  | returned (S : ScriptSt)
  | raised (e : ErrRec) (S : ScriptSt)
  | crashed (e : PyErr) (S : ScriptSt)
  deriving Repr, DecidableEq

/-- The `finally:` block of `Script.filter`: look up
`self.e.get(last=True, to_raise=True)` when `self.e.seen(to_raise=True)`,
then `self.reset(index, scope, ctx_id, in_context, _filter)`, then re-raise
the retrieved error if any. -/
def filterExitFull (rmatch : String → String → Bool) (S : ScriptSt) :
    FilterExit :=
  match seenToRaise S.ctxErrors with
  | .error pe => .crashed pe S
  | .ok saw =>
    let toRaise := if saw then getLastToRaise S.ctxErrors else none
    let restored := exitReset rmatch S
    match toRaise with
    | some e => .raised e restored
    | none => .returned restored

/-- `enumerate(sorted_statements, start=n)` with
`set_state(index=current)` applied to each value. -/
def renumberFrom (n : Nat) : List (Int × SStmt) → List (Int × SStmt)
  | [] => []
  | p :: rest =>
    (Int.ofNat n, { p.2 with index := Int.ofNat n }) :: renumberFrom (n + 1) rest

/-- `Script.statements`: all of `_statements_all` outside a filter context;
inside one, the included statements keyed `1..K` in ascending prior-index
order, each renumbered via `set_state(index=current_idx)`. -/
def statementsView (S : ScriptSt) : List (Int × SStmt) :=
  if !S.filtered then S.stmtsAll
  else
    let included :=
      pyDict
        ((S.stmtsAll.map Prod.snd).filterMap
          (fun s => if s.included then some (s.index, s) else none))
    renumberFrom 1 (sortByKey included)

/-- `Script.depth`: `len(self.statements)`. -/
def depthS (S : ScriptSt) : Nat :=
  (statementsView S).length

/-- `Script._id` on an integer: positive indices are themselves, other
integers resolve to `self.depth + _id + 1`. -/
def resolveId (S : ScriptSt) (i : Int) : Int :=
  if i > 0 then i else (depthS S : Int) + i + 1

/-- Result of `Script.statement(_id)`. -/
inductive FetchRes where
  /-- The statement stored under the resolved index. -/
  | found (s : SStmt)
  /-- `StatementNotFoundError`. -/
  | notFound
  deriving Repr, DecidableEq

/-- `Script.statement(_id)` for an integer `_id`: resolve the index and
fetch it from `self.statements`, raising `StatementNotFoundError` when the
resolved index is not a key. -/
def statementFetch (S : ScriptSt) (i : Int) : FetchRes :=
  match (statementsView S).lookup (resolveId S i) with
  | some s => .found s
  | none => .notFound

/-- The canonical (as-parsed, outside any filter context) script states:
keys are the statements' original indices, strictly increasing; every
index equals its original; every tag is included; no open context. -/
def canonical (S : ScriptSt) : Prop :=
  S.filtered = false ∧ S.ctxErrors = [] ∧
    (∀ p ∈ S.stmtsAll,
      p.1 = p.2.origIdx ∧ p.2.index = p.2.origIdx ∧ p.2.included = true) ∧
    (S.stmtsAll.map (fun p => p.2.origIdx)).Pairwise (· < ·)

end Scr

/-! ## Basic lemmas -/

lemma isPrefixOf_self (l : List Char) : l.isPrefixOf l = true := by
  induction l with
  | nil => rfl
  | cons a as ih => simp [List.isPrefixOf, ih]

lemma listOccurs_self (l : List Char) : listOccurs l l = true := by
  cases l with
  | nil => rfl
  | cons a as => simp [listOccurs, isPrefixOf_self]

lemma strOccurs_self (s : String) : strOccurs s s = true := by
  simp [strOccurs, listOccurs_self]

/-- A scope evaluated against no filter arguments always includes: the
inclusion fallback is the singleton of `base`, which matches itself; the
exclusion fallback is empty. -/
lemma scopeEval_empty (rmatch : String → String → Bool) (b : String) :
    scopeEval rmatch b [] [] = true := by
  simp [scopeEval, checkAgainst, matchesPatterns, strOccurs_self]

/-- `Tag.scope(**{})` always yields `is_included = True`. -/
lemma tagScope_empty (rmatch : String → String → Bool) (b : TagBases) :
    tagScope rmatch b emptyFilters = true := by
  simp [tagScope, emptyFilters, scopeEval_empty]

namespace Scr

lemma lookup_eq_none_of_not_mem (l : List (Int × SStmt)) (k : Int)
    (h : k ∉ l.map Prod.fst) : l.lookup k = none := by
  induction l with
  | nil => rfl
  | cons p rest ih =>
    simp only [List.map_cons, List.mem_cons] at h
    push_neg at h
    have h1 : (k == p.1) = false := by
      simp [beq_iff_eq]
      exact h.1
    simp [List.lookup, h1, ih h.2]

lemma dictUpsert_append (acc : List (Int × SStmt)) (kv : Int × SStmt)
    (h : ∀ p ∈ acc, p.1 ≠ kv.1) : dictUpsert acc kv = acc ++ [kv] := by
  have hnot : acc.any (fun p => p.1 == kv.1) = false := by
    simp only [List.any_eq_false]
    intro p hp
    simp [beq_iff_eq]
    exact h p hp
  simp [dictUpsert, hnot]

lemma foldl_dictUpsert (l : List (Int × SStmt)) :
    ∀ acc : List (Int × SStmt),
      (((acc ++ l).map Prod.fst).Pairwise (· ≠ ·)) →
      l.foldl dictUpsert acc = acc ++ l := by
  induction l with
  | nil => intro acc _; simp
  | cons kv rest ih =>
    intro acc h
    have hmem : ∀ p ∈ acc, p.1 ≠ kv.1 := by
      intro p hp
      rw [List.map_append, List.pairwise_append] at h
      exact h.2.2 p.1 (List.mem_map_of_mem Prod.fst hp) kv.1 (by simp)
    have hstep : dictUpsert acc kv = acc ++ [kv] := dictUpsert_append acc kv hmem
    rw [List.foldl_cons, hstep, ih (acc ++ [kv]) (by simpa using h)]
    simp

/-- A Python dict comprehension over pairwise-distinct keys is the identity
on the association list. -/
lemma pyDict_id (l : List (Int × SStmt))
    (h : (l.map Prod.fst).Pairwise (· ≠ ·)) : pyDict l = l := by
  have := foldl_dictUpsert l [] (by simpa using h)
  simpa [pyDict] using this

/-- Sorting an association list whose keys are already strictly increasing
is the identity. -/
lemma sortByKey_sorted (l : List (Int × SStmt))
    (h : (l.map Prod.fst).Pairwise (· < ·)) : sortByKey l = l := by
  induction l with
  | nil => rfl
  | cons kv rest ih =>
    simp only [List.map_cons, List.pairwise_cons] at h
    rw [sortByKey, ih h.2]
    cases rest with
    | nil => rfl
    | cons p rest2 =>
      have hle : kv.1 ≤ p.1 :=
        le_of_lt (h.1 p.1 (by simp))
      simp [insertByKey, hle]

/-- The relation between an in-context statement entry and its pre-entry
original: same original index and same identity components (only `index`
and `is_included` are mutated inside a filter context). -/
def coreRel (q p : Int × SStmt) : Prop :=
  q.2.origIdx = p.2.origIdx ∧ q.2.bases = p.2.bases

lemma restore_keys {tl sl : List (Int × SStmt)}
    (h : List.Forall₂ coreRel tl sl) :
    tl.map (fun p => p.2.origIdx) = sl.map (fun p => p.2.origIdx) := by
  induction h with
  | nil => rfl
  | cons h1 _ ih => simp [h1.1, ih]

lemma restore_list (rmatch : String → String → Bool) {tl sl : List (Int × SStmt)}
    (h : List.Forall₂ coreRel tl sl)
    (hs : ∀ p ∈ sl,
      p.1 = p.2.origIdx ∧ p.2.index = p.2.origIdx ∧ p.2.included = true) :
    tl.map
      (fun p => ((stmtResetIndex p.2).index,
        stmtResetScope rmatch (stmtResetIndex p.2))) = sl := by
  induction h with
  | nil => rfl
  | cons h1 h2 ih =>
    rename_i a b tl2 sl2
    have hb := hs b (by simp)
    have htail : ∀ p ∈ sl2,
        p.1 = p.2.origIdx ∧ p.2.index = p.2.origIdx ∧ p.2.included = true :=
      fun p hp => hs p (by simp [hp])
    simp only [List.map_cons, ih htail]
    obtain ⟨bk, bs⟩ := b
    obtain ⟨ak, as'⟩ := a
    obtain ⟨ho, hbs⟩ := h1
    obtain ⟨hb1, hb2, hb3⟩ := hb
    cases as'
    cases bs
    simp_all [stmtResetIndex, stmtResetScope, tagScope_empty]

/-- Exiting a filter context restores a canonical script state: the cleanup
in `Script.filter`'s `finally:` undoes any index or inclusion mutation the
context applied. -/
lemma exitReset_restores (rmatch : String → String → Bool) (S T : ScriptSt)
    (hfilt : T.filtered = true)
    (hcanon : canonical S)
    (hcore : List.Forall₂ coreRel T.stmtsAll S.stmtsAll) :
    exitReset rmatch T = S := by
  obtain ⟨hf, hc, hstmts, hpair⟩ := hcanon
  have hkeysEq : T.stmtsAll.map (fun p => p.2.origIdx)
      = S.stmtsAll.map (fun p => p.2.origIdx) := restore_keys hcore
  have hXkeys :
      ((T.stmtsAll.map
        (fun p => ((stmtResetIndex p.2).index, stmtResetIndex p.2))).map
          Prod.fst).Pairwise (· < ·) := by
    have : (T.stmtsAll.map
        (fun p => ((stmtResetIndex p.2).index, stmtResetIndex p.2))).map
          Prod.fst = T.stmtsAll.map (fun p => p.2.origIdx) := by
      simp [stmtResetIndex]
    rw [this, hkeysEq]
    exact hpair
  have hpy : pyDict (T.stmtsAll.map
      (fun p => ((stmtResetIndex p.2).index, stmtResetIndex p.2)))
      = T.stmtsAll.map
        (fun p => ((stmtResetIndex p.2).index, stmtResetIndex p.2)) :=
    pyDict_id _ (hXkeys.imp fun hlt => ne_of_lt hlt)
  have hsort : sortByKey (T.stmtsAll.map
      (fun p => ((stmtResetIndex p.2).index, stmtResetIndex p.2)))
      = T.stmtsAll.map
        (fun p => ((stmtResetIndex p.2).index, stmtResetIndex p.2)) :=
    sortByKey_sorted _ hXkeys
  have hfinal := restore_list rmatch hcore hstmts
  obtain ⟨sAll, sFilt, sCtx⟩ := S
  simp only at hf hc
  subst hf hc
  simp only [exitReset, hfilt]
  congr 1
  rw [List.map_map]
  have hcomp : ((fun (p : Int × SStmt) => (p.2.index, p.2)) ∘
      (fun (p : Int × SStmt) => (p.1, stmtResetIndex p.2)))
      = (fun (p : Int × SStmt) =>
          ((stmtResetIndex p.2).index, stmtResetIndex p.2)) := by
    funext p
    rfl
  rw [hcomp, hpy, hsort, List.map_map]
  have hcomp2 : ((fun (p : Int × SStmt) => (p.1, stmtResetScope rmatch p.2)) ∘
      (fun (p : Int × SStmt) =>
        ((stmtResetIndex p.2).index, stmtResetIndex p.2)))
      = (fun (p : Int × SStmt) => ((stmtResetIndex p.2).index,
          stmtResetScope rmatch (stmtResetIndex p.2))) := by
    funext p
    rfl
  rw [hcomp2, hfinal]

end Scr

/-! ## Lemmas about `mkTag` -/

/-- The record produced by a successful `Tag.__init__`. -/
def tagOf (cfg : Cfg) (nmPr : String) (sql : String) (index : Nat) : Tag :=
  let prs := tagPrs cfg nmPr
  { nmPr := nmPr
    anchorPr := prs.1
    kwPr := prs.2.1
    objPr := prs.2.2.1
    descPr := prs.2.2.2
    firstLine := tagFirstLine sql
    kwGe := kwGeF cfg sql
    objGe := objGeF cfg sql
    descGe := descGeF index
    anchorGe := anchorGeF cfg sql
    nmGe := nmGeF cfg sql index
    kw := strOr prs.2.1 (kwGeF cfg sql)
    nm := strOr nmPr (nmGeF cfg sql index)
    obj := strOr prs.2.2.1 (objGeF cfg sql)
    desc := strOr prs.2.2.2 (descGeF index)
    anchor := strOr prs.1 (anchorGeF cfg sql)
    index := index }

lemma mkTag_eq_tagOf (cfg : Cfg) (nmPr : String) (sql : String) (index : Nat)
    (h1 : cfg.sepDesc ≠ "")
    (h2 : ¬((partDesc cfg nmPr).length = 3 ∧ anchorVf cfg nmPr = []))
    (h3 : wordsInFirstLine sql ≠ []) :
    mkTag cfg nmPr sql index = some (tagOf cfg nmPr sql index) := by
  simp [mkTag, h1, h2, h3, tagOf]

lemma mkTag_inv {cfg : Cfg} {nmPr sql : String} {index : Nat} {t : Tag}
    (h : mkTag cfg nmPr sql index = some t) :
    t = tagOf cfg nmPr sql index ∧ cfg.sepDesc ≠ "" ∧
      ¬((partDesc cfg nmPr).length = 3 ∧ anchorVf cfg nmPr = []) ∧
      wordsInFirstLine sql ≠ [] := by
  by_cases h1 : cfg.sepDesc = ""
  · simp [mkTag, h1] at h
  by_cases h2 : (partDesc cfg nmPr).length = 3 ∧ anchorVf cfg nmPr = []
  · simp [mkTag, h1, h2] at h
  by_cases h3 : wordsInFirstLine sql = []
  · simp [mkTag, h1, h2, h3] at h
  refine ⟨?_, h1, h2, h3⟩
  rw [mkTag_eq_tagOf cfg nmPr sql index h1 h2 h3] at h
  exact (Option.some_inj.mp h).symm

lemma mem_of_lookup_eq_some {l : List (String × String)} {k v : String}
    (h : l.lookup k = some v) : (k, v) ∈ l := by
  induction l with
  | nil => simp [List.lookup] at h
  | cons p rest ih =>
    by_cases hk : (k == p.1)
    · have hkk : k = p.1 := by simpa [beq_iff_eq] using hk
      rw [List.lookup] at h
      simp [hk] at h
      have hp : p = (k, v) := by
        obtain ⟨pk, pv⟩ := p
        simp only at hkk h
        simp [hkk, h]
      simp [hp]
    · rw [List.lookup] at h
      simp [Bool.of_not_eq_true hk] at h
      right
      exact ih h

lemma head_ne_of_filter_ne (l : List String)
    (h : l.filter (fun v => v ≠ "") ≠ []) :
    (l.filter (fun v => v ≠ "")).headD "" ≠ "" := by
  have hmem : (l.filter (fun v => v ≠ "")).headD "" ∈
      l.filter (fun v => v ≠ "") := by
    cases hl : l.filter (fun v => v ≠ "") with
    | nil => exact absurd hl h
    | cons a rest => simp
  have := List.of_mem_filter hmem
  simpa using this

/-! ## Claims C3, C4, C9 — tag identity inference -/

/-- C3 (counterexample).  A tag name that provides only the anchor
component (`"create table"`, no description separator) is not decomposed at
all: with sql `"select 1"` and a `generic_anchors` entry for `select`, the
resulting tag's `anchor` is the generated `"select data"`, not the provided
`"create table"`, and `desc` is the generated default — so the claim's
`anchor = provided` fails at this input. -/
theorem C3_counterexample :
    (mkTag ⟨"~", [], [("select", "select data")], []⟩
      "create table" "select 1" 1).map
        (fun t => (t.anchor, t.desc, t.nm)) =
      some ("select data", "statement #1", "create table") ∧
    ("select data" : String) ≠ "create table" := by
  constructor
  · decide
  · decide

/-- C3 (amended).  Provided components are parsed only when
`nm_pr.partition(sep_desc)` yields three non-empty parts (anchor, separator
and description all present); a name providing only an anchor leaves every
`_pr` component empty, so `anchor` and `desc` fall back to the generated
values.  In all cases each of `kw`, `obj`, `desc`, `anchor`, `nm` is
computed independently as `provided or generated` (Python string
truthiness). -/
theorem C3_amended_override_independence (cfg : Cfg) (nmPr sql : String)
    (index : Nat) (t : Tag) (h : mkTag cfg nmPr sql index = some t) :
    (t.kw = strOr t.kwPr t.kwGe ∧ t.obj = strOr t.objPr t.objGe ∧
      t.desc = strOr t.descPr t.descGe ∧
      t.anchor = strOr t.anchorPr t.anchorGe ∧
      t.nm = strOr t.nmPr t.nmGe) ∧
    ((partDesc cfg nmPr).length ≠ 3 →
      t.anchorPr = "" ∧ t.kwPr = "" ∧ t.objPr = "" ∧ t.descPr = "" ∧
      t.anchor = t.anchorGe ∧ t.desc = t.descGe) := by
  obtain ⟨ht, _, _, _⟩ := mkTag_inv h
  subst ht
  constructor
  · exact ⟨rfl, rfl, rfl, rfl, rfl⟩
  · intro hlen
    simp [tagOf, tagPrs, hlen, strOr]

/-- C3 (witness for the amended theorem): the no-separator case at a
concrete input. -/
theorem C3_amended_witness :
    (partDesc ⟨"~", [], [], ["table"]⟩ "create table").length ≠ 3 ∧
    (tagOf ⟨"~", [], [], ["table"]⟩ "create table" "select 1" 4).anchor
      = (tagOf ⟨"~", [], [], ["table"]⟩ "create table" "select 1" 4).anchorGe ∧
    (tagOf ⟨"~", [], [], ["table"]⟩ "create table" "select 1" 4).desc
      = (tagOf ⟨"~", [], [], ["table"]⟩ "create table" "select 1" 4).descGe := by
  have hlen : (partDesc ⟨"~", [], [], ["table"]⟩ "create table").length ≠ 3 := by
    decide
  have hind := C3_amended_override_independence ⟨"~", [], [], ["table"]⟩
    "create table" "select 1" 4
    (tagOf ⟨"~", [], [], ["table"]⟩ "create table" "select 1" 4) (by decide)
  obtain ⟨-, h2⟩ := hind
  obtain ⟨-, -, -, -, ha, hd⟩ := h2 hlen
  exact ⟨hlen, ha, hd⟩

/-- C4.  For the code's own documented example
`'create table~sample records'` (tag.py's inline comment annotates
`obj_pr` with `# 'table'`), the guard `len(anchor_vf) > 2` leaves `obj_pr`
empty for a two-word anchor, so the tag's `obj` falls back to the generated
object (`"unknown"` here) instead of the second anchor word `"table"`. -/
theorem C4_two_word_anchor_drops_object :
    (mkTag ⟨"~", [], [], []⟩ "create table~sample records" "select 1" 1).map
        (fun t => (t.kwPr, t.objPr, t.anchorPr, t.descPr, t.obj)) =
      some ("create", "", "create table", "sample records", "unknown") ∧
    ("" : String) ≠ "table" := by
  constructor
  · decide
  · decide

/-- C9 (counterexample).  With a `keyword_exceptions` entry mapping
`select` to the empty string — a configuration the claim's stated
assumptions do not exclude — an untagged statement whose first line is the
non-empty `"select 1"` gets `kw = ""`, so identity completeness fails. -/
theorem C9_counterexample :
    (mkTag ⟨"~", [("select", "")], [], []⟩ "" "select 1" 1).map Tag.kw
      = some "" ∧ tagFirstLine "select 1" ≠ "" := by
  constructor
  · decide
  · decide

lemma kwGeF_def (cfg : Cfg) (sql : String) :
    kwGeF cfg sql
      = (cfg.kwExceptions.lookup ((wordsInFirstLine sql).headD "")).getD
          ((wordsInFirstLine sql).headD "") := rfl

lemma anchorGeF_of_lookup_none (cfg : Cfg) (sql : String)
    (h : cfg.genericAnchors.lookup (kwGeF cfg sql) = none) :
    anchorGeF cfg sql = kwGeF cfg sql ++
      (if kwGeF cfg sql ≠ "" ∧ objGeF cfg sql ≠ "" then " " else "") ++
      objGeF cfg sql := by
  rw [anchorGeF, h]

lemma anchorGeF_of_lookup_some (cfg : Cfg) (sql : String) (ga : String)
    (h : cfg.genericAnchors.lookup (kwGeF cfg sql) = some ga) :
    anchorGeF cfg sql =
      if ga ≠ "" ∧ objGeF cfg sql = DEF_OBJ then ga
      else kwGeF cfg sql ++
        (if kwGeF cfg sql ≠ "" ∧ objGeF cfg sql ≠ "" then " " else "") ++
        objGeF cfg sql := by
  rw [anchorGeF, h]

lemma string_ne_empty_of_length_pos {s : String} (h : s.length ≠ 0) :
    s ≠ "" := by
  intro he
  exact h (by simp [he])

lemma string_length_zero_eq_empty {s : String} (h : s.length = 0) :
    s = "" := by
  cases s with
  | mk data =>
    simp [String.length] at h
    simp [h]

/-- C9 (amended).  Identity completeness holds for every successfully
constructed tag under the additional well-formedness assumptions that every
`keyword_exceptions` value and every `named_objects` term is non-empty:
each of `kw`, `obj`, `desc`, `anchor`, `nm` is then a non-empty string. -/
theorem C9_amended_identity_completeness (cfg : Cfg) (nmPr sql : String)
    (index : Nat) (t : Tag) (h : mkTag cfg nmPr sql index = some t)
    (hkw : ∀ p ∈ cfg.kwExceptions, p.2 ≠ "")
    (hobj : ∀ o ∈ cfg.namedObjects, o ≠ "") :
    t.kw ≠ "" ∧ t.obj ≠ "" ∧ t.desc ≠ "" ∧ t.anchor ≠ "" ∧ t.nm ≠ "" := by
  obtain ⟨ht, hsep, hvf, hwords⟩ := mkTag_inv h
  subst ht
  have hw0 : (wordsInFirstLine sql).headD "" ≠ "" := by
    have := head_ne_of_filter_ne
      ((pySplit (tagFirstLine sql) ' ').map argToString) hwords
    simpa [wordsInFirstLine] using this
  have hkwGe : kwGeF cfg sql ≠ "" := by
    rw [kwGeF_def]
    cases hl : cfg.kwExceptions.lookup ((wordsInFirstLine sql).headD "") with
    | none => simpa using hw0
    | some v =>
      have := hkw _ (mem_of_lookup_eq_some hl)
      simpa using this
  have hobjGe : objGeF cfg sql ≠ "" := by
    rw [objGeF]
    cases ho : (objectsWithin cfg.namedObjects (tagFirstLine sql)).head? with
    | none => simp [DEF_OBJ]
    | some p =>
      have hmem : p ∈ objectsWithin cfg.namedObjects (tagFirstLine sql) :=
        List.mem_of_mem_head? ho
      have : p.2 ∈ cfg.namedObjects := by
        unfold objectsWithin at hmem
        rw [List.mem_filterMap] at hmem
        obtain ⟨a, ha, hfa⟩ := hmem
        by_cases hw : wholeWordOccurs a.2 (tagFirstLine sql)
        · simp [hw] at hfa
          have := List.snd_mem_of_mem_enum ha
          simpa [← hfa] using this
        · simp [hw] at hfa
      simpa using hobj _ this
  have hdescGe : descGeF index ≠ "" := by
    apply string_ne_empty_of_length_pos
    rw [descGeF]
    rw [String.length_append, String.length_append]
    have h9 : (DEF_DESC : String).length = 9 := by decide
    omega
  have hcat : kwGeF cfg sql ++
      (if kwGeF cfg sql ≠ "" ∧ objGeF cfg sql ≠ "" then " " else "") ++
      objGeF cfg sql ≠ "" := by
    apply string_ne_empty_of_length_pos
    intro heq
    rw [String.length_append, String.length_append] at heq
    have hh : (objGeF cfg sql).length = 0 := by omega
    exact hobjGe (string_length_zero_eq_empty hh)
  have hanchorGe : anchorGeF cfg sql ≠ "" := by
    cases hga : cfg.genericAnchors.lookup (kwGeF cfg sql) with
    | none =>
      rw [anchorGeF_of_lookup_none cfg sql hga]
      exact hcat
    | some ga =>
      rw [anchorGeF_of_lookup_some cfg sql ga hga]
      split
      · rename_i hcnd
        exact hcnd.1
      · exact hcat
  have hnmGe : nmGeF cfg sql index ≠ "" := by
    rw [nmGeF]
    apply string_ne_empty_of_length_pos
    intro heq
    rw [String.length_append, String.length_append] at heq
    have hh : (descGeF index).length = 0 := by omega
    exact hdescGe (string_length_zero_eq_empty hh)
  refine ⟨?_, ?_, ?_, ?_, ?_⟩
  · simp only [tagOf, strOr]
    split
    · assumption
    · exact hkwGe
  · simp only [tagOf, strOr]
    split
    · assumption
    · exact hobjGe
  · simp only [tagOf, strOr]
    split
    · assumption
    · exact hdescGe
  · simp only [tagOf, strOr]
    split
    · assumption
    · exact hanchorGe
  · simp only [tagOf, strOr]
    split
    · assumption
    · exact hnmGe

/-- C9 (witness for the amended theorem) at a concrete configuration and
statement. -/
theorem C9_amended_witness :
    (tagOf ⟨"~", [("with", "select")], [], ["table"]⟩ ""
        "create table t as select 1" 2).kw ≠ "" ∧
    (tagOf ⟨"~", [("with", "select")], [], ["table"]⟩ ""
        "create table t as select 1" 2).obj ≠ "" ∧
    (tagOf ⟨"~", [("with", "select")], [], ["table"]⟩ ""
        "create table t as select 1" 2).desc ≠ "" ∧
    (tagOf ⟨"~", [("with", "select")], [], ["table"]⟩ ""
        "create table t as select 1" 2).anchor ≠ "" ∧
    (tagOf ⟨"~", [("with", "select")], [], ["table"]⟩ ""
        "create table t as select 1" 2).nm ≠ "" :=
  C9_amended_identity_completeness ⟨"~", [("with", "select")], [], ["table"]⟩
    "" "create table t as select 1" 2 _ (by decide) (by decide) (by decide)

/-! ## Claims C1, C2 — statement execution lifecycle -/

/-- A fresh, included, generic statement over `DF := Bool` (a result set
abstracted to its emptiness bit, `dfEmpty = id`). -/
def c1Stmt : Run.StmtState Bool :=
  { kind := .base, included := true, results := false, startTime := 0,
    endTime := 0, executionTime := 0, outcomeB := false, outcomeI := 0,
    executed := false, hErrors := [], hOutcome := none }

/-- C1.  When the driver call raises, `run` crashes with
`AttributeError: 'NoneType' object has no attribute 'set'` — for
`on_error="c"` and for the default alike — because
`ExceptionHandler.collect` returns `None` and `run` chains
`.set(outcome=1)` onto it; the stored driver exception never receives a
`to_raise` attribute (its ledger entry carries `toRaise = none`), so no
tagging with `on_error != "c"` ever happens and `run(on_error="c")` does
not return `self`. -/
theorem C1_driver_error_crashes :
    Run.run (fun b => b) c1Stmt (.dbError 7) (some "c") none none 3 4
      = .raisedPy .noneHasNoAttributeSet
          { c1Stmt with startTime := 3, hErrors := [⟨.driver 7, none, 4⟩] } ∧
    Run.run (fun b => b) c1Stmt (.dbError 7) none none none 3 4
      = .raisedPy .noneHasNoAttributeSet
          { c1Stmt with startTime := 3, hErrors := [⟨.driver 7, none, 4⟩] } := by
  constructor
  · decide
  · decide

/-- C2 (counterexample).  An excluded `qa-empty` statement: `run` makes no
driver call but still invokes `process()` in its `finally:` block, which
moves `_outcome` from `0` to `-3` — post-processing is performed and a
per-run outcome field changes, contradicting the no-op claim. -/
def c2Stmt : Run.StmtState Bool :=
  { kind := .qaEmpty, included := false, results := true, startTime := 0,
    endTime := 0, executionTime := 0, outcomeB := false, outcomeI := 0,
    executed := false, hErrors := [], hOutcome := none }

/-- C2 (counterexample): see `c2Stmt`. -/
theorem C2_counterexample :
    Run.run (fun b => b) c2Stmt (.ok false) none none none 5 9
      = .returned { c2Stmt with outcomeB := true, outcomeI := -3 } ∧
    (-3 : Int) ≠ c2Stmt.outcomeI := by
  constructor
  · decide
  · decide

/-- C2 (amended).  For an excluded statement `run` never touches the
driver (its result is independent of the query outcome).  For *base*
statements it is a true no-op returning `self` (only the handler's fresh
per-run context differs); for QA variants `process()` still runs inside
`finally:`, e.g. an excluded `qa-empty` statement with empty stored results
comes back with `outcome = True` and `_outcome = -3`. -/
theorem C2_amended_excluded_run {DF : Type} (dfEmpty : DF → Bool)
    (s : Run.StmtState DF) (q q' : Run.QueryRes DF)
    (onError onException onFailure : Option String) (t1 t2 : Nat)
    (h : s.included = false) :
    Run.run dfEmpty s q onError onException onFailure t1 t2
      = Run.run dfEmpty s q' onError onException onFailure t1 t2 ∧
    (s.kind = .base →
      Run.run dfEmpty s q onError onException onFailure t1 t2
        = .returned { s with hErrors := [] }) ∧
    (s.kind = .qaEmpty → dfEmpty s.results = true → s.outcomeI = 0 →
      s.hOutcome = none →
      Run.run dfEmpty s q onError onException onFailure t1 t2
        = .returned { s with hErrors := [], outcomeB := true, outcomeI := -3 }) := by
  obtain ⟨kind, inc, res, st, en, ex, ob, oi, exd, he, ho⟩ := s
  simp only at h
  subst h
  refine ⟨?_, ?_, ?_⟩
  · simp [Run.run]
  · intro hk
    simp only at hk
    subst hk
    simp [Run.run, Run.processK, seenQ, Run.isDerived]
  · intro hk hdf hout hho
    simp only at hk hdf hout hho
    subst hk
    subst hout
    subst hho
    simp [Run.run, Run.processK, Run.setOutcome, hdf, seenQ, Run.isDerived]

/-- C2 (witness for the amended theorem): a concrete excluded base
statement. -/
def c2wStmt : Run.StmtState Bool :=
  { kind := .base, included := false, results := false, startTime := 0,
    endTime := 0, executionTime := 0, outcomeB := false, outcomeI := 0,
    executed := false, hErrors := [], hOutcome := none }

/-- C2 (witness): the amended theorem applied at `c2wStmt`. -/
theorem C2_amended_witness :
    Run.run (fun b => b) c2wStmt (.ok true) none none none 1 2
      = Run.run (fun b => b) c2wStmt (.dbError 3) none none none 1 2 ∧
    Run.run (fun b => b) c2wStmt (.ok true) none none none 1 2
      = .returned { c2wStmt with hErrors := [] } :=
  ⟨(C2_amended_excluded_run (fun b => b) c2wStmt (.ok true) (.dbError 3)
      none none none 1 2 rfl).1,
   (C2_amended_excluded_run (fun b => b) c2wStmt (.ok true) (.dbError 3)
      none none none 1 2 rfl).2.1 rfl⟩

/-! ## Claim C6 — `QA.Diff` partition-count requirement -/

/-- Fewer than two partitions leave no consecutive pair to compare, so the
equality check is vacuously `True`. -/
lemma partitionsAreEqual_short {DF : Type} (d : DF → DF → Bool)
    (ps : List DF) (h : ps.length ≤ 1) :
    QaDiff.partitionsAreEqual d ps = true := by
  cases ps with
  | nil => rfl
  | cons x t =>
    cases t with
    | nil => rfl
    | cons y t2 => simp at h

/-- C6 (counterexample): oracles under which `split_cols` passes and
partitioning yields exactly one sub-table. -/
def c6Ops : QaDiff.DFOps Unit :=
  { columns := fun _ => ["g", "i", "c"]
    colsEndingAt := fun _ _ _ => ["i"]
    colsMatchingPatterns := fun _ pats _ => if pats = ["c"] then ["c"] else []
    dropCols := fun _ _ => ()
    setIndex := fun _ _ => ()
    partitions := fun _ _ => .ok [()]
    dfDiff := fun _ _ => false }

/-- C6 (counterexample): a `qa-diff` statement post-execution
(`_outcome = 2`). -/
def c6St : QaDiff.DiffSt Unit :=
  { results := (), partitionOn := "g", endIndexAt := "i",
    comparePatterns := ["c"], ignorePatterns := [],
    idxCols := [], dropColsL := [], compareCols := [], partitionsL := [],
    outcomeB := true, outcomeI := 2, hErrors := [] }

/-- C6 (counterexample).  Partitioning into a single sub-table (`N = 1 <
2`) does not fail the validation: `Diff.process` sets the passed outcome
code `-3`, because `partitions_are_equal` is vacuously true and no `N ≥ 2`
check exists. -/
theorem C6_counterexample :
    (QaDiff.diffProcess c6Ops c6St 3).partitionsL = [()] ∧
    (QaDiff.diffProcess c6Ops c6St 3).outcomeI = -3 := by
  constructor
  · decide
  · decide

/-- C6 (amended).  `Diff.process` enforces no minimum partition count: when
the column isolation steps succeed (non-empty index and comparison columns,
no drop columns, partition column present) and partitioning returns fewer
than two sub-tables, the pairwise equality check passes vacuously and the
outcome is the passed code `-3`. -/
theorem C6_amended_vacuous_pass {DF : Type} (ops : QaDiff.DFOps DF)
    (s : QaDiff.DiffSt DF) (stamp : Nat) (ps : List DF)
    (hidx : ops.colsEndingAt s.results s.endIndexAt [s.partitionOn] ≠ [])
    (hdrop : ops.colsMatchingPatterns s.results s.ignorePatterns [] = [])
    (hcmp : ops.colsMatchingPatterns s.results s.comparePatterns
      (s.partitionOn :: ops.colsEndingAt s.results s.endIndexAt [s.partitionOn])
      ≠ [])
    (hcol : (ops.columns s.results).contains s.partitionOn = true)
    (hparts : ops.partitions
      (ops.setIndex s.results
        (ops.colsEndingAt s.results s.endIndexAt [s.partitionOn]))
      s.partitionOn = Except.ok ps)
    (hlen : ps.length ≤ 1)
    (hout1 : s.outcomeI ≠ -1) (hout2 : s.outcomeI ≠ 1) :
    (QaDiff.diffProcess ops s stamp).outcomeB = true ∧
    (QaDiff.diffProcess ops s stamp).outcomeI = -3 := by
  obtain ⟨res, pOn, eIdx, cPat, iPat, iC, dC, cC, pL, ob, oi, he⟩ := s
  simp only at hidx hdrop hcmp hcol hparts hout1 hout2
  have hcol2 : pOn ∈ ops.columns res := by simpa using hcol
  simp [QaDiff.diffProcess, QaDiff.setOutcomeD, hidx, hdrop, hcmp, hcol2,
    hparts, hout1, hout2, partitionsAreEqual_short _ ps hlen]

/-- C6 (witness for the amended theorem): oracles as in the counterexample
but with an empty partition list. -/
def c6wOps : QaDiff.DFOps Unit :=
  { columns := fun _ => ["g", "i", "c"]
    colsEndingAt := fun _ _ _ => ["i"]
    colsMatchingPatterns := fun _ pats _ => if pats = ["c"] then ["c"] else []
    dropCols := fun _ _ => ()
    setIndex := fun _ _ => ()
    partitions := fun _ _ => .ok []
    dfDiff := fun _ _ => false }

/-- C6 (witness): a fresh `qa-diff` statement for the amended theorem. -/
def c6wSt : QaDiff.DiffSt Unit :=
  { results := (), partitionOn := "g", endIndexAt := "i",
    comparePatterns := ["c"], ignorePatterns := [],
    idxCols := [], dropColsL := [], compareCols := [], partitionsL := [],
    outcomeB := false, outcomeI := 2, hErrors := [] }

/-- C6 (witness): the amended theorem applied at `c6wOps`/`c6wSt`. -/
theorem C6_amended_witness :
    (QaDiff.diffProcess c6wOps c6wSt 5).outcomeB = true ∧
    (QaDiff.diffProcess c6wOps c6wSt 5).outcomeI = -3 :=
  C6_amended_vacuous_pass c6wOps c6wSt 5 [] (by decide) (by decide)
    (by decide) (by decide) (by rfl) (by decide) (by decide) (by decide)

/-! ## Claims C7, C8, C10 — filter contexts and lookup -/

lemma renumberFrom_keys (l : List (Int × Scr.SStmt)) :
    ∀ n : Nat, (Scr.renumberFrom n l).map Prod.fst
      = (List.range' n l.length).map Int.ofNat := by
  induction l with
  | nil => intro n; rfl
  | cons p rest ih =>
    intro n
    simp only [Scr.renumberFrom, List.map_cons, List.length_cons,
      List.range'_succ]
    rw [ih (n + 1)]

/-- C7.  Entering and exiting `Script.filter(**F)` from a canonical state
(the state of a freshly parsed script) restores the script exactly: the
exit path of the context manager re-sorts `_statements_all` by the restored
original indices, resets every index and every tag's `is_included`, closes
the handler context, and — with no error collected — returns cleanly. -/
theorem C7_filter_reversibility (rmatch : String → String → Bool)
    (F : Filters) (S : Scr.ScriptSt) (h : Scr.canonical S) :
    Scr.filterExitFull rmatch (Scr.filterEnter rmatch F S) = .returned S := by
  obtain ⟨hf, hc, hstmts, hpair⟩ := h
  have hTctx : (Scr.filterEnter rmatch F S).ctxErrors = [] := by
    simp [Scr.filterEnter]
  have hTfilt : (Scr.filterEnter rmatch F S).filtered = true := by
    simp [Scr.filterEnter, hf]
  have hcore : List.Forall₂ Scr.coreRel
      (Scr.filterEnter rmatch F S).stmtsAll S.stmtsAll := by
    simp only [Scr.filterEnter]
    rw [List.forall₂_map_left_iff]
    exact List.forall₂_same.mpr (fun p _ => ⟨rfl, rfl⟩)
  have hrestore := Scr.exitReset_restores rmatch S (Scr.filterEnter rmatch F S)
    hTfilt ⟨hf, hc, hstmts, hpair⟩ hcore
  simp [Scr.filterExitFull, hTctx, seenToRaise, hrestore]

/-- C7 (witness): a concrete two-statement canonical script. -/
def c7S : Scr.ScriptSt :=
  { stmtsAll :=
      [(1, { origIdx := 1, index := 1, included := true,
             bases := { kw := "select", obj := "unknown",
                        desc := "statement #1", anchor := "select data",
                        nm := "select data~statement #1" } }),
       (2, { origIdx := 2, index := 2, included := true,
             bases := { kw := "create", obj := "table",
                        desc := "statement #2", anchor := "create table",
                        nm := "create table~statement #2" } })],
    filtered := false, ctxErrors := [] }

/-- C7 (witness): the theorem applied at `c7S` with a keyword filter. -/
theorem C7_witness :
    Scr.filterExitFull (fun _ _ => false)
      (Scr.filterEnter (fun _ _ => false) { inclKw := ["select"] } c7S)
      = .returned c7S :=
  C7_filter_reversibility (fun _ _ => false) { inclKw := ["select"] } c7S
    (by constructor
        · rfl
        · exact ⟨rfl, by decide, by decide⟩)

/-- C8.  Outside a filter context `Script.statements` is `_statements_all`
itself (keys are the stored source indices); inside one it maps exactly the
included statements, in ascending prior-index order, to the contiguous keys
`1..K` where `K` is the number of included statements. -/
theorem C8_filter_renumbering (S : Scr.ScriptSt)
    (hkeys : (((S.stmtsAll.map Prod.snd).filterMap
      (fun s => if s.included then some (s.index, s) else none)).map
        Prod.fst).Pairwise (· < ·)) :
    (S.filtered = false → Scr.statementsView S = S.stmtsAll) ∧
    (S.filtered = true →
      Scr.statementsView S = Scr.renumberFrom 1
        ((S.stmtsAll.map Prod.snd).filterMap
          (fun s => if s.included then some (s.index, s) else none)) ∧
      (Scr.statementsView S).map Prod.fst
        = (List.range' 1
            (((S.stmtsAll.map Prod.snd).filterMap
              (fun s => if s.included then some (s.index, s) else none)).length)).map
            Int.ofNat) := by
  constructor
  · intro h
    simp [Scr.statementsView, h]
  · intro h
    have hkeys2 : ((S.stmtsAll.filterMap
        ((fun s => if s.included then some (s.index, s) else none) ∘
          Prod.snd)).map Prod.fst).Pairwise (· < ·) := by
      rw [← List.filterMap_map]
      exact hkeys
    have h1 : Scr.statementsView S = Scr.renumberFrom 1
        ((S.stmtsAll.map Prod.snd).filterMap
          (fun s => if s.included then some (s.index, s) else none)) := by
      simp [Scr.statementsView, h,
        Scr.pyDict_id _ (hkeys2.imp fun hlt => ne_of_lt hlt),
        Scr.sortByKey_sorted _ hkeys2]
    refine ⟨h1, ?_⟩
    rw [h1, renumberFrom_keys]

/-- C8 (witness): a filtered two-statement script with one excluded
statement. -/
def c8S : Scr.ScriptSt :=
  { stmtsAll :=
      [(1, { origIdx := 1, index := 1, included := false,
             bases := { kw := "select", obj := "unknown",
                        desc := "statement #1", anchor := "select data",
                        nm := "select data~statement #1" } }),
       (2, { origIdx := 2, index := 2, included := true,
             bases := { kw := "create", obj := "table",
                        desc := "statement #2", anchor := "create table",
                        nm := "create table~statement #2" } })],
    filtered := true, ctxErrors := [] }

/-- C8 (witness): the theorem applied at `c8S` — the single included
statement (original index 2) is renumbered to key 1. -/
theorem C8_witness :
    Scr.statementsView c8S = Scr.renumberFrom 1
      ((c8S.stmtsAll.map Prod.snd).filterMap
        (fun s => if s.included then some (s.index, s) else none)) ∧
    (Scr.statementsView c8S).map Prod.fst
      = (List.range' 1
          (((c8S.stmtsAll.map Prod.snd).filterMap
            (fun s => if s.included then some (s.index, s) else none)).length)).map
          Int.ofNat :=
  (C8_filter_renumbering c8S (by decide)).2 rfl

/-- C10.  `script.statement(0)` raises `StatementNotFoundError`: the
integer `_id = 0` is not positive, so `_id` resolves it to `depth + 0 + 1`,
which lies outside the contiguous keys `1..depth` of
`Script.statements`. -/
theorem C10_statement_zero_not_found (S : Scr.ScriptSt)
    (hkeys : (Scr.statementsView S).map Prod.fst
      = (List.range' 1 (Scr.depthS S)).map Int.ofNat) :
    Scr.statementFetch S 0 = .notFound := by
  have h0 : Scr.resolveId S 0 = (Scr.depthS S : Int) + 1 := by
    simp [Scr.resolveId]
  have hnot : ((Scr.depthS S : Int) + 1) ∉
      (Scr.statementsView S).map Prod.fst := by
    rw [hkeys]
    intro hmem
    rw [List.mem_map] at hmem
    obtain ⟨k, hk, hke⟩ := hmem
    rw [List.mem_range'_1] at hk
    rw [Int.ofNat_eq_coe] at hke
    omega
  simp [Scr.statementFetch, h0, Scr.lookup_eq_none_of_not_mem _ _ hnot]

/-- C10 (witness): an unfiltered two-statement script. -/
def c10S : Scr.ScriptSt :=
  { stmtsAll :=
      [(1, { origIdx := 1, index := 1, included := true,
             bases := { kw := "select", obj := "unknown",
                        desc := "statement #1", anchor := "select data",
                        nm := "select data~statement #1" } }),
       (2, { origIdx := 2, index := 2, included := true,
             bases := { kw := "create", obj := "table",
                        desc := "statement #2", anchor := "create table",
                        nm := "create table~statement #2" } })],
    filtered := false, ctxErrors := [] }

/-- C10 (witness): the theorem applied at `c10S`. -/
theorem C10_witness : Scr.statementFetch c10S 0 = .notFound :=
  C10_statement_zero_not_found c10S (by decide)

/-! ## Claim C5 — which collected error a filter context re-raises -/

lemma foldMax_spec (l : List ErrRec) (emax : ErrRec) :
    ∀ acc : Option ErrRec,
      (∀ e ∈ l, e = emax ∨ e.tmstmp < emax.tmstmp) →
      ((emax ∈ l ∧ ∀ a, acc = some a → a.tmstmp < emax.tmstmp) ∨
        acc = some emax) →
      l.foldl
        (fun acc e =>
          match acc with
          | none => some e
          | some a => if e.tmstmp > a.tmstmp then some e else some a)
        acc = some emax := by
  induction l with
  | nil =>
    intro acc _ hacc
    rcases hacc with ⟨hmem, -⟩ | heq
    · exact absurd hmem (List.not_mem_nil _)
    · simpa using heq
  | cons e rest ih =>
    intro acc hall hacc
    rw [List.foldl_cons]
    have he := hall e (by simp)
    rcases hacc with ⟨hmem, hlt⟩ | heq
    · cases acc with
      | none =>
        rcases he with heq2 | hlt2
        · subst heq2
          exact ih (some e) (fun x hx => hall x (by simp [hx])) (Or.inr rfl)
        · have hmem2 : emax ∈ rest := by
            rcases List.mem_cons.mp hmem with h1 | h1
            · exact absurd h1.symm (by intro hh; rw [hh] at hlt2; omega)
            · exact h1
          exact ih (some e) (fun x hx => hall x (by simp [hx]))
            (Or.inl ⟨hmem2, fun a ha => by
              injection ha with ha2
              rw [← ha2]
              exact hlt2⟩)
      | some a =>
        have hal := hlt a rfl
        rcases he with heq2 | hlt2
        · subst heq2
          have hgt : e.tmstmp > a.tmstmp := hal
          simp only [hgt, if_pos]
          exact ih (some e) (fun x hx => hall x (by simp [hx])) (Or.inr rfl)
        · have hmem2 : emax ∈ rest := by
            rcases List.mem_cons.mp hmem with h1 | h1
            · exact absurd h1.symm (by intro hh; rw [hh] at hlt2; omega)
            · exact h1
          by_cases hgt : e.tmstmp > a.tmstmp
          · simp only [hgt, if_pos]
            exact ih (some e) (fun x hx => hall x (by simp [hx]))
              (Or.inl ⟨hmem2, fun x hx => by
                injection hx with hx2
                rw [← hx2]
                exact hlt2⟩)
          · simp only [hgt, if_neg]
            exact ih (some a) (fun x hx => hall x (by simp [hx]))
              (Or.inl ⟨hmem2, fun x hx => by
                injection hx with hx2
                rw [← hx2]
                exact hal⟩)
    · subst heq
      rcases he with heq2 | hlt2
      · subst heq2
        have : ¬ e.tmstmp > e.tmstmp := by omega
        simp only [this, if_neg]
        exact ih (some e) (fun x hx => hall x (by simp [hx])) (Or.inr rfl)
      · have : ¬ e.tmstmp > emax.tmstmp := by omega
        simp only [this, if_neg]
        exact ih (some emax) (fun x hx => hall x (by simp [hx])) (Or.inr rfl)

/-- `get(last=True, to_raise=True)` returns the `to_raise=True` entry with
the strictly greatest timestamp. -/
lemma getLastToRaise_spec (l : List ErrRec) (emax : ErrRec)
    (hmem : emax ∈ l) (hr : emax.toRaise = some true)
    (hmax : ∀ e ∈ l, e.toRaise = some true → e ≠ emax →
      e.tmstmp < emax.tmstmp) :
    getLastToRaise l = some emax := by
  unfold getLastToRaise
  apply foldMax_spec
  · intro e he
    rw [List.mem_filter] at he
    by_cases heq : e = emax
    · exact Or.inl heq
    · exact Or.inr (hmax e he.1 (by simpa using he.2) heq)
  · refine Or.inl ⟨?_, ?_⟩
    · rw [List.mem_filter]
      exact ⟨hmem, by simp [hr]⟩
    · intro a ha
      exact absurd ha (by simp)

/-- C5 (amended).  When a filter context has collected at least one
`to_raise=True` error (and every collected exception carries a `to_raise`
attribute), the `finally:` block of `Script.filter` computes the error to
re-raise, performs the full state restore, and only then re-raises — and
the re-raised error is `get(last=True, to_raise=True)`: the **most recent**
`to_raise=True` error of the context, not the first.  From a canonical
pre-entry state the carried script state is exactly that pre-entry
state. -/
theorem C5_amended_restore_then_reraise_latest
    (rmatch : String → String → Bool) (T : Scr.ScriptSt) (emax : ErrRec)
    (htagged : ∀ e ∈ T.ctxErrors, e.toRaise.isSome)
    (hmem : emax ∈ T.ctxErrors) (hr : emax.toRaise = some true)
    (hmax : ∀ e ∈ T.ctxErrors, e.toRaise = some true → e ≠ emax →
      e.tmstmp < emax.tmstmp) :
    Scr.filterExitFull rmatch T = .raised emax (Scr.exitReset rmatch T) ∧
    (∀ S, Scr.canonical S → T.filtered = true →
      List.Forall₂ Scr.coreRel T.stmtsAll S.stmtsAll →
      Scr.filterExitFull rmatch T = .raised emax S) := by
  have hnone : T.ctxErrors.any (fun e => e.toRaise.isNone) = false := by
    rw [List.any_eq_false]
    intro e he
    have := htagged e he
    simp [Option.isNone_iff_eq_none]
    exact Option.isSome_iff_ne_none.mp this
  have hsome : T.ctxErrors.any (fun e => e.toRaise = some true) = true := by
    rw [List.any_eq_true]
    exact ⟨emax, hmem, by simp [hr]⟩
  have hseen : seenToRaise T.ctxErrors = .ok true := by
    rw [seenToRaise, hnone]
    simp [hsome]
  have hmain : Scr.filterExitFull rmatch T
      = .raised emax (Scr.exitReset rmatch T) := by
    rw [Scr.filterExitFull, hseen]
    simp [getLastToRaise_spec T.ctxErrors emax hmem hr hmax]
  refine ⟨hmain, ?_⟩
  intro S hcanon hfilt hcore
  rw [hmain, Scr.exitReset_restores rmatch S T hfilt hcanon hcore]

/-- C5 (counterexample): two `to_raise=True` errors in one context,
collected at timestamps 1 and 2. -/
def c5e1 : ErrRec := { kind := .generic 1, toRaise := some true, tmstmp := 1 }

/-- C5 (counterexample): the later error. -/
def c5e2 : ErrRec := { kind := .generic 2, toRaise := some true, tmstmp := 2 }

/-- C5 (counterexample): an in-context script whose ledger holds `c5e1`
then `c5e2`. -/
def c5T : Scr.ScriptSt :=
  { stmtsAll :=
      [(1, { origIdx := 1, index := 1, included := true,
             bases := { kw := "select", obj := "unknown",
                        desc := "statement #1", anchor := "select data",
                        nm := "select data~statement #1" } })],
    filtered := true, ctxErrors := [c5e1, c5e2] }

/-- C5 (counterexample).  With two `to_raise=True` errors seen in the
context, the exit re-raises the most recent one (`c5e2`, timestamp 2), not
the first one seen (`c5e1`, timestamp 1), refuting the claim as stated. -/
theorem C5_counterexample :
    Scr.filterExitFull (fun _ _ => false) c5T
      = .raised c5e2 (Scr.exitReset (fun _ _ => false) c5T) ∧
    c5e2 ≠ c5e1 ∧ c5e1.tmstmp < c5e2.tmstmp := by
  refine ⟨by decide, by decide, by decide⟩

/-- C5 (witness): a context that collected one untaggable-free ledger with
a single `to_raise=True` error. -/
def c5wT : Scr.ScriptSt :=
  { stmtsAll :=
      [(1, { origIdx := 1, index := 3, included := false,
             bases := { kw := "select", obj := "unknown",
                        desc := "statement #1", anchor := "select data",
                        nm := "select data~statement #1" } })],
    filtered := true,
    ctxErrors := [{ kind := .qaEmptyFailure 9, toRaise := some true,
                    tmstmp := 7 }] }

/-- C5 (witness): the amended theorem applied at `c5wT`. -/
theorem C5_amended_witness :
    Scr.filterExitFull (fun _ _ => false) c5wT
      = .raised { kind := .qaEmptyFailure 9, toRaise := some true, tmstmp := 7 }
          (Scr.exitReset (fun _ _ => false) c5wT) :=
  (C5_amended_restore_then_reraise_latest (fun _ _ => false) c5wT
    { kind := .qaEmptyFailure 9, toRaise := some true, tmstmp := 7 }
    (by decide) (by decide) (by decide) (by decide)).1

end Snowmobile


